import Mathlib

/-!
Shallow embedding of the student-data pipeline in `src/utils/data_manager.py`
(`DataManager`): schema validation (`validate_data`), source loading and
merging (`load_data`), KPI encoding and sign alignment (`process_kpi_data`),
score shifting (`generate_kpi`), and KPI-column reconfiguration
(`reset_kpi_columns`).

Tables are modelled as a column-name list plus a row list; each cell is a
string, an integer, or a missing value.  pandas-level operations used by the
source (column selection `df[cols]`, `isin`, comparisons, `is_unique`,
`dropna`, `concat`, `drop_duplicates`) are embedded as executable functions on
this representation.  Pearson correlation appears in the source only through
its comparisons with zero; its sign equals the sign of the scaled covariance
`n·Σxy − Σx·Σy`, and it is defined (non-NaN) exactly when both scaled
variances `n·Σx² − (Σx)²` are positive, which is how the branch conditions are
embedded.
-/

deriving instance DecidableEq for Except

namespace ImprovStudy

/-- A cell of a pandas DataFrame: a string, an integer, or a missing value. -/
inductive Val
  | vStr (s : String)
  | vInt (n : Int)
  | vNA
deriving DecidableEq

/-- A DataFrame: named columns and a list of rows (each row lists the cell of
every column, in column order). -/
@[ext]
structure Table where
  cols : List String
  rows : List (List Val)
deriving DecidableEq

/-- `df[c]`: the values of column `c`, read off each row at the position of
`c` in the column-name list (missing-cell default `vNA`). -/
def Table.col (t : Table) (c : String) : List Val :=
  t.rows.map (fun r => r.getD (t.cols.indexOf c) Val.vNA)

/-- `df[cs]` (column selection / reordering).  pandas raises `KeyError` when a
requested column is absent, hence the `Option`. -/
def Table.select (t : Table) (cs : List String) : Option Table :=
  if cs.all (fun c => decide (c ∈ t.cols)) then
    some ⟨cs, t.rows.map (fun r => cs.map (fun c => r.getD (t.cols.indexOf c) Val.vNA))⟩
  else none

/-- `series.is_unique`: no value occurs twice. -/
def allDistinct : List Val → Bool
  | [] => true
  | v :: vs => !(vs.contains v) && allDistinct vs

/-- `DataManager.columns` (constructor, lines 49-52): the declared schema. -/
def COLUMNS : List String :=
  ["StudentID", "FirstName", "FamilyName", "sex", "age", "address", "famsize", "Pstatus", "Medu",
   "Fedu", "Mjob", "Fjob", "reason", "guardian", "traveltime", "studytime", "failures",
   "schoolsup", "famsup", "paid", "activities", "nursery", "higher", "internet", "romantic",
   "famrel", "freetime", "goout", "Dalc", "Walc", "health", "absences", "FinalGrade"]

/-- `series.isin(list_of_strings)`: true on a string cell contained in the
list, false on any other cell (pandas `isin` compares values, so an integer
cell is simply not in a list of strings). -/
def isOneOf (ss : List String) : Val → Bool
  | .vStr s => ss.contains s
  | _ => false

/-- `series.isin(list_of_ints)`. -/
def isIntIn (ns : List Int) : Val → Bool
  | .vInt n => ns.contains n
  | _ => false

/-- True on the cells pandas can compare with an integer bound without
raising: integers, and NaN (which compares `False`); a string cell makes the
column object-dtype and the comparison raise `TypeError`. -/
def comparableCell : Val → Bool
  | .vStr _ => false
  | _ => true

/-- `((series >= lo) & (series <= hi)).all()` at column level: `none` models
the `TypeError` pandas raises when the column contains a string cell
(object dtype); otherwise `some` of whether every cell is an integer in the
closed range (a NaN cell compares `False`, failing the check). -/
def colBetween (t : Table) (c : String) (lo hi : Int) : Option Bool :=
  if (t.col c).all comparableCell then
    some ((t.col c).all (fun v => match v with
      | .vInt k => decide (lo ≤ k) && decide (k ≤ hi)
      | _ => false))
  else none

/-- `series.p().all()` for column `c`. -/
def Table.colAll (t : Table) (c : String) (p : Val → Bool) : Bool :=
  (t.col c).all p

/-- Errors a `validate_data` call can raise: a failed `assert` (with its
message), the pandas `KeyError` raised by `df[self.columns]` when an
expected column is absent, or the pandas `TypeError` raised by a range
comparison over a column containing a string cell.  `load_data` catches only
`AssertionError`, so the latter two abort the run. -/
inductive VErr
  | assertFail (msg : String)
  | keyErr
  | typeErr
deriving DecidableEq

/-- The content `assert`s of `validate_data` (lines 85-115), in source
order: each entry pairs the asserted condition on the column-selected frame
with the assert's message.  The condition of a range check (`age`,
`absences`, `FinalGrade`) is an `Option Bool`: `none` models the comparison
itself raising `TypeError` on an object-dtype column; the `isin` and
`is_unique` checks never raise and are wrapped in `some`. -/
def checksOf (d : Table) : List (Option Bool × String) :=
  [(some (allDistinct (d.col "StudentID")), "StudentID must be unique"),
   (some (d.colAll "sex" (isOneOf ["M", "F"])), ""),
   (colBetween d "age" 15 22, "Age must be between 15 and 22"),
   (some (d.colAll "address" (isOneOf ["U", "R"])), "Address must be either U or R"),
   (some (d.colAll "famsize" (isOneOf ["LE3", "GT3"])), "Family size must be either LE3 or GT3"),
   (some (d.colAll "Pstatus" (isOneOf ["T", "A"])), "Pstatus must be either T or A"),
   (some (d.colAll "Medu" (isIntIn [0, 1, 2, 3, 4])), "Medu must be in (0, 1, 2, 3, 4)"),
   (some (d.colAll "Fedu" (isIntIn [0, 1, 2, 3, 4])), "Fedu must be in (0, 1, 2, 3, 4)"),
   (some (d.colAll "Mjob" (isOneOf ["teacher", "health", "services", "at_home", "other"])), "Mjob isn't recognized"),
   (some (d.colAll "Fjob" (isOneOf ["teacher", "health", "services", "at_home", "other"])), "Fjob isn't recognized"),
   (some (d.colAll "reason" (isOneOf ["home", "reputation", "course", "other"])), "reason isn't recognized"),
   (some (d.colAll "guardian" (isOneOf ["mother", "father", "other"])), "guardian isn't recognized"),
   (some (d.colAll "traveltime" (isIntIn [1, 2, 3, 4])), "traveltime must be in (1, 2, 3, 4)"),
   (some (d.colAll "studytime" (isIntIn [1, 2, 3, 4])), "studytime must be in (1, 2, 3, 4)"),
   (some (d.colAll "failures" (isIntIn [0, 1, 2, 3, 4])), "failures must be in (1, 2, 3, 4)"),
   (some (d.colAll "schoolsup" (isOneOf ["yes", "no"])), "schoolsup must be yes or no"),
   (some (d.colAll "famsup" (isOneOf ["yes", "no"])), "famsup must be yes or no"),
   (some (d.colAll "paid" (isOneOf ["yes", "no"])), "paid must be yes or no"),
   (some (d.colAll "activities" (isOneOf ["yes", "no"])), "activities must be yes or no"),
   (some (d.colAll "nursery" (isOneOf ["yes", "no"])), "nursery must be yes or no"),
   (some (d.colAll "higher" (isOneOf ["yes", "no"])), "higher must be yes or no"),
   (some (d.colAll "internet" (isOneOf ["yes", "no"])), "internet must be yes or no"),
   (some (d.colAll "romantic" (isOneOf ["yes", "no"])), "romantic must be yes or no"),
   (some (d.colAll "famrel" (isIntIn [1, 2, 3, 4, 5])), "famrel must be between 1 and 5"),
   (some (d.colAll "freetime" (isIntIn [1, 2, 3, 4, 5])), "freetime must be between 1 and 5"),
   (some (d.colAll "goout" (isIntIn [1, 2, 3, 4, 5])), "goout must be between 1 and 5"),
   (some (d.colAll "Dalc" (isIntIn [1, 2, 3, 4, 5])), "Dalc must be between 1 and 5"),
   (some (d.colAll "Walc" (isIntIn [1, 2, 3, 4, 5])), "Dalc must be between 1 and 5"),
   (some (d.colAll "health" (isIntIn [1, 2, 3, 4, 5])), "health must be between 1 and 5"),
   (colBetween d "absences" 0 93, "absences must be between 0 and 93"),
   (colBetween d "FinalGrade" 0 20, "FinalGrade must be between 0 and 20")]

/-- Run a sequence of `assert cond, msg` statements: evaluating a condition
modelled as `none` raises `TypeError` on the spot, a condition evaluating to
`false` raises `AssertionError(msg)`, and otherwise the next assert runs;
falling through returns the frame unchanged. -/
def runChecks (d : Table) : List (Option Bool × String) → Except VErr Table
  | [] => .ok d
  | (none, _) :: _ => .error .typeErr
  | (some b, m) :: rest => if !b then .error (.assertFail m) else runChecks d rest

/-- The chain of content `assert`s of `validate_data` (lines 85-115), run on
the column-selected frame; falls through to returning the frame. -/
def validateChecks (d : Table) : Except VErr Table :=
  runChecks d (checksOf d)

/-- `DataManager.validate_data` (lines 75-116): empty check, the
all-present-columns-are-declared check (whose assert message claims to test
for missing columns), the `df[self.columns]` selection — which raises an
uncaught `KeyError` when a declared column is absent — then the content
asserts on the selected copy. -/
def validate_data (df : Table) : Except VErr Table :=
  if df.rows.isEmpty then .error (.assertFail "Dataframe is empty")
  else if !(df.cols.all (fun c => decide (c ∈ COLUMNS))) then .error (.assertFail "Some columns are missing")
  else
    match df.select COLUMNS with
    | none => .error .keyErr
    | some d => validateChecks d

/-- Errors a `load_data` run can end in: the "No valid data found" assert,
the propagated `KeyError` or `TypeError` of `validate_data` (which
`except AssertionError` does not catch), or the post-merge
"StudentID must be unique." assert. -/
inductive LErr
  | noValidData
  | keyErr
  | typeErr
  | identityConflict
deriving DecidableEq

/-- `pd.read_csv(filename).dropna()` (line 130): drop every row containing a
missing value. -/
def dropna (t : Table) : Table :=
  ⟨t.cols, t.rows.filter (fun r => !(r.contains Val.vNA))⟩

/-- The `for filename in self.files` loop of `load_data` (lines 128-138): each
source is validated; an `AssertionError` skips the source, while a `KeyError`
or `TypeError` propagates and aborts the run. -/
def collectValid : List Table → Except LErr (List Table)
  | [] => .ok []
  | t :: ts =>
    match validate_data (dropna t) with
    | .ok v => (collectValid ts).map (v :: ·)
    | .error .keyErr => .error .keyErr
    | .error .typeErr => .error .typeErr
    | .error (.assertFail _) => collectValid ts

/-- `pd.concat(dfs)`: concatenation of the validated frames' rows (they all
carry exactly the declared columns). -/
def mergeRows : List Table → List (List Val)
  | [] => []
  | t :: ts => t.rows ++ mergeRows ts

/-- `.drop_duplicates()`: keep the first occurrence of each full row. -/
def dedupAux (seen : List (List Val)) : List (List Val) → List (List Val)
  | [] => []
  | r :: rs => if r ∈ seen then dedupAux seen rs else r :: dedupAux (r :: seen) rs

/-- `.drop_duplicates()` on a row list. -/
def dedupRows (rs : List (List Val)) : List (List Val) :=
  dedupAux [] rs

/-- `DataManager.load_data` (lines 118-142): validate each source (skipping
`AssertionError`s), require at least one valid source, concatenate and
drop full-row duplicates, then require `StudentID` uniqueness. -/
def load_data (srcs : List Table) : Except LErr Table :=
  match collectValid srcs with
  | .error e => .error e
  | .ok dfs =>
    if dfs.isEmpty then .error .noValidData
    else if allDistinct ((Table.mk COLUMNS (dedupRows (mergeRows dfs))).col "StudentID") then
      .ok ⟨COLUMNS, dedupRows (mergeRows dfs)⟩
    else .error .identityConflict

/-! ### KPI processing (`process_kpi_data`, lines 144-167) -/

/-- Numeric view of a cell (the `FinalGrade` and integer KPI columns). -/
def toInt : Val → Int
  | .vInt n => n
  | _ => 0

/-- String view of a cell, for label encoding of a non-integer column. -/
def toStr : Val → String
  | .vStr s => s
  | .vInt n => toString n
  | .vNA => "nan"

/-- Insert into a sorted string list (used to model the sorted unique classes
of `LabelEncoder`). -/
def insertSorted (s : String) : List String → List String
  | [] => [s]
  | t :: ts => if s ≤ t then s :: t :: ts else t :: insertSorted s ts

/-- `LabelEncoder().fit_transform`: each value is mapped to the index of its
first occurrence in the sorted list of distinct values. -/
def labelEncode (l : List String) : List Int :=
  let classes := l.dedup.foldr insertSorted []
  l.map (fun s => (classes.indexOf s : Int))

/-- Lines 157-161: an integer-dtype column is copied as-is, any other column
goes through `LabelEncoder`. -/
def encodeCol (vs : List Val) : List Int :=
  if vs.all (fun v => match v with | .vInt _ => true | _ => false) then vs.map toInt
  else labelEncode (vs.map toStr)

def sumL : List Int → Int
  | [] => 0
  | x :: xs => x + sumL xs

def dot : List Int → List Int → Int
  | a :: as, b :: bs => a * b + dot as bs
  | _, _ => 0

/-- `n·Σxy − Σx·Σy`: the Pearson correlation numerator scaled by `n²·σx·σy`;
it has the same sign as the correlation whenever the latter is defined. -/
def covN (a b : List Int) : Int :=
  (a.length : Int) * dot a b - sumL a * sumL b

/-- `n·Σx² − (Σx)²`: scaled variance; the correlation is NaN iff one of the
two scaled variances is zero (constant column, or fewer than two rows). -/
def varN (a : List Int) : Int :=
  covN a a

/-- `correlation > 0` (line 163): false when the correlation is NaN, i.e.
when either variance vanishes. -/
def corrPos (g x : List Int) : Bool :=
  decide (0 < varN g) && decide (0 < varN x) && decide (0 < covN g x)

/-- `correlation == 0` (line 165): false when the correlation is NaN. -/
def corrZero (g x : List Int) : Bool :=
  decide (0 < varN g) && decide (0 < varN x) && decide (covN g x = 0)

/-- `self.data['FinalGrade']` as integers. -/
def finalGrades (t : Table) : List Int :=
  (t.col "FinalGrade").map toInt

/-- The columns assigned so far in `self.kpi_data` (`None` for a KPI column
never assigned, which pandas surfaces as an all-NaN column of the frame that
was created with all the KPI column names). -/
def KData := String → Option (List Int)

def kdEmpty : KData := fun _ => none

def kdUpdate (kd : KData) (c : String) (v : List Int) : KData :=
  fun c' => if c' = c then some v else kd c'

/-- The `for c in self.kpi_columns` loop (lines 156-167), with Python's list
iterator made explicit: the iterator keeps an index `i` into the (mutated)
list, returns `cols[i]` and advances to `i+1`, and stops once `i` reaches the
current length.  The body assigns `kpi_data[c]`, negates it when the
correlation is positive, and on zero correlation evaluates
`kpi_data.drop(columns=[c])` — whose result is discarded, a no-op — and
removes `c` from the list being iterated.  `fuel` bounds the iteration count;
since `i` grows by one per step and the list never grows, the initial length
is enough fuel. -/
def processLoop (data : Table) : Nat → Nat → List String → KData → List String × KData
  | 0, _, cols, kd => (cols, kd)
  | fuel + 1, i, cols, kd =>
    if h : i < cols.length then
      if corrPos (finalGrades data) (encodeCol (data.col cols[i])) then
        processLoop data fuel (i + 1) cols
          (kdUpdate (kdUpdate kd cols[i] (encodeCol (data.col cols[i])))
            cols[i] ((encodeCol (data.col cols[i])).map (fun z => -z)))
      else if corrZero (finalGrades data) (encodeCol (data.col cols[i])) then
        processLoop data fuel (i + 1) (cols.erase cols[i])
          (kdUpdate kd cols[i] (encodeCol (data.col cols[i])))
      else
        processLoop data fuel (i + 1) cols
          (kdUpdate kd cols[i] (encodeCol (data.col cols[i])))
    else (cols, kd)

/-- `DataManager.process_kpi_data` (lines 144-167): returns the final
`kpi_columns` list and the assigned columns of `kpi_data`. -/
def process_kpi_data (data : Table) (kpiCols : List String) : List String × KData :=
  processLoop data kpiCols.length 0 kpiCols kdEmpty

/-! ### Score generation (`generate_kpi`, lines 169-184) -/

/-- `series.min()`. -/
def minOf : List ℚ → ℚ
  | [] => 0
  | x :: xs => xs.foldl (fun a b => if a ≤ b then a else b) x

/-- Modelled from the source's `generate_kpi` score step (lines 183-184):
`raw` stands for the one-dimensional PCA projection
`pca.transform(self.kpi_data)[:, 0]` (the floating-point PCA fit itself is
abstracted as this function's input), and the stored `ImprovabilityScore` is
`raw - raw.min()`. -/
def generate_kpi (raw : List ℚ) : List ℚ :=
  raw.map (fun x => x - minOf raw)

/-- `DataManager.reset_kpi_columns` (lines 186-192). -/
def reset_kpi_columns (kpi_columns new_kpi_columns : List String) : List String :=
  if new_kpi_columns.length > 0 then new_kpi_columns else kpi_columns

/-! ### Concrete fixtures -/

/-- A schema-valid record (StudentID 1). -/
def goodRow : List Val :=
  [.vInt 1, .vStr "Ann", .vStr "Lee", .vStr "F", .vInt 16, .vStr "U", .vStr "GT3", .vStr "T",
   .vInt 2, .vInt 3, .vStr "teacher", .vStr "other", .vStr "home", .vStr "mother", .vInt 1,
   .vInt 2, .vInt 0, .vStr "yes", .vStr "no", .vStr "no", .vStr "yes", .vStr "yes", .vStr "yes",
   .vStr "yes", .vStr "no", .vInt 4, .vInt 3, .vInt 2, .vInt 1, .vInt 1, .vInt 5, .vInt 2,
   .vInt 14]

/-- A second schema-valid record (StudentID 2). -/
def goodRow2 : List Val :=
  [.vInt 2, .vStr "Bob", .vStr "Kim", .vStr "M", .vInt 17, .vStr "R", .vStr "LE3", .vStr "A",
   .vInt 4, .vInt 1, .vStr "health", .vStr "services", .vStr "course", .vStr "father", .vInt 2,
   .vInt 1, .vInt 1, .vStr "no", .vStr "yes", .vStr "yes", .vStr "no", .vStr "no", .vStr "yes",
   .vStr "no", .vStr "yes", .vInt 5, .vInt 4, .vInt 3, .vInt 2, .vInt 2, .vInt 3, .vInt 6,
   .vInt 10]

/-- `goodRow` with a different first name but the same StudentID. -/
def goodRowZoe : List Val :=
  [.vInt 1, .vStr "Zoe", .vStr "Lee", .vStr "F", .vInt 16, .vStr "U", .vStr "GT3", .vStr "T",
   .vInt 2, .vInt 3, .vStr "teacher", .vStr "other", .vStr "home", .vStr "mother", .vInt 1,
   .vInt 2, .vInt 0, .vStr "yes", .vStr "no", .vStr "no", .vStr "yes", .vStr "yes", .vStr "yes",
   .vStr "yes", .vStr "no", .vInt 4, .vInt 3, .vInt 2, .vInt 1, .vInt 1, .vInt 5, .vInt 2,
   .vInt 14]

/-- `goodRow2` with StudentID 3 and an out-of-domain age of 23. -/
def badAgeRow : List Val :=
  [.vInt 3, .vStr "Cal", .vStr "Roe", .vStr "M", .vInt 23, .vStr "R", .vStr "LE3", .vStr "A",
   .vInt 4, .vInt 1, .vStr "health", .vStr "services", .vStr "course", .vStr "father", .vInt 2,
   .vInt 1, .vInt 1, .vStr "no", .vStr "yes", .vStr "yes", .vStr "no", .vStr "no", .vStr "yes",
   .vStr "no", .vStr "yes", .vInt 5, .vInt 4, .vInt 3, .vInt 2, .vInt 2, .vInt 3, .vInt 6,
   .vInt 10]

/-- A fully valid two-record source. -/
def goodTable : Table := ⟨COLUMNS, [goodRow, goodRow2]⟩

/-- A valid one-record source. -/
def sourceA : Table := ⟨COLUMNS, [goodRow]⟩

/-- A valid one-record source assigning a different name to StudentID 1. -/
def sourceB : Table := ⟨COLUMNS, [goodRowZoe]⟩

/-- A source with an out-of-domain age (23) in its only row. -/
def badAgeTable : Table := ⟨COLUMNS, [badAgeRow]⟩

/-- `badAgeRow` with StudentID 4 and a non-numeric age token, as a CSV cell
that fails to parse as a number (making the column object dtype). -/
def strAgeRow : List Val :=
  [.vInt 4, .vStr "Dee", .vStr "Poe", .vStr "M", .vStr "old", .vStr "R", .vStr "LE3", .vStr "A",
   .vInt 4, .vInt 1, .vStr "health", .vStr "services", .vStr "course", .vStr "father", .vInt 2,
   .vInt 1, .vInt 1, .vStr "no", .vStr "yes", .vStr "yes", .vStr "no", .vStr "no", .vStr "yes",
   .vStr "no", .vStr "yes", .vInt 5, .vInt 4, .vInt 3, .vInt 2, .vInt 2, .vInt 3, .vInt 6,
   .vInt 10]

/-- A source whose only row has the non-numeric age cell. -/
def strAgeTable : Table := ⟨COLUMNS, [strAgeRow]⟩

/-- A non-empty source whose columns are all declared but in which most
expected columns (from `FirstName` on) are absent. -/
def missingColTable : Table := ⟨["StudentID", "sex"], [[.vInt 1, .vStr "M"]]⟩

/-- KPI fixture: `FinalGrade = [1,2,3]`, feature `A = [1,2,1]` (correlation
exactly 0), feature `B = [3,1,2]`. -/
def kpiTableAB : Table :=
  ⟨["FinalGrade", "A", "B"],
   [[.vInt 1, .vInt 1, .vInt 3], [.vInt 2, .vInt 2, .vInt 1], [.vInt 3, .vInt 1, .vInt 2]]⟩

/-- KPI fixture: `FinalGrade = [1,2,3]`, feature `Z = [5,5,5]` (zero
variance, hence NaN correlation). -/
def kpiTableZ : Table :=
  ⟨["FinalGrade", "Z"],
   [[.vInt 1, .vInt 5], [.vInt 2, .vInt 5], [.vInt 3, .vInt 5]]⟩

/-! ### Helper lemmas -/

lemma COLUMNS_nodup : COLUMNS.Nodup := by decide

lemma foldl_ifmin_sub (l : List ℚ) (m : ℚ) : ∀ x : ℚ,
    (l.map (fun y => y - m)).foldl (fun a b => if a ≤ b then a else b) (x - m)
      = l.foldl (fun a b => if a ≤ b then a else b) x - m := by
  induction l with
  | nil => intro x; rfl
  | cons a l ih =>
    intro x
    simp only [List.map_cons, List.foldl_cons]
    have he : (if x - m ≤ a - m then x - m else a - m) = (if x ≤ a then x else a) - m := by
      by_cases h : x ≤ a
      · rw [if_pos h, if_pos (by linarith)]
      · rw [if_neg h, if_neg (fun hc => h (by linarith))]
    rw [he, ih]

/-! ### C2: score shift -/

/-- C2: for every non-empty raw PCA projection, the generated
`ImprovabilityScore` column has minimum exactly 0, and is obtained by
subtracting the minimum raw score from every record's raw score. -/
theorem C2_score_min_zero (raw : List ℚ) (h : raw ≠ []) :
    minOf (generate_kpi raw) = 0 ∧ generate_kpi raw = raw.map (fun x => x - minOf raw) := by
  refine ⟨?_, rfl⟩
  obtain ⟨x, xs, rfl⟩ := List.exists_cons_of_ne_nil h
  show minOf ((x :: xs).map (fun y => y - minOf (x :: xs))) = 0
  simp only [List.map_cons, minOf]
  rw [foldl_ifmin_sub]
  simp [minOf]

theorem C2_score_min_zero_witness :
    minOf (generate_kpi [(3 : ℚ), 1, 4]) = 0 :=
  (C2_score_min_zero [(3 : ℚ), 1, 4] (by simp)).1

/-! ### C10: reset_kpi_columns -/

/-- C10: resetting with an empty list leaves `kpi_columns` unchanged (a
silent no-op); resetting with a non-empty list replaces it exactly. -/
theorem C10_reset_no_op_on_empty (cur nw : List String) :
    (nw = [] → reset_kpi_columns cur nw = cur) ∧
      (nw ≠ [] → reset_kpi_columns cur nw = nw) := by
  constructor
  · rintro rfl; rfl
  · intro h
    unfold reset_kpi_columns
    rw [if_pos]
    exact List.length_pos.mpr h

theorem C10_reset_no_op_on_empty_witness :
    reset_kpi_columns ["absences"] [] = ["absences"] ∧
      reset_kpi_columns ["absences"] ["Dalc"] = ["Dalc"] :=
  ⟨(C10_reset_no_op_on_empty ["absences"] []).1 rfl,
   (C10_reset_no_op_on_empty ["absences"] ["Dalc"]).2 (by simp)⟩

/-! ### C1, C3, C5, C6: closed evaluations -/

/-- C1 (bug evaluation): on `kpiTableAB` the feature `A` has correlation
exactly 0 with `FinalGrade`; it is removed from the effective KPI list, yet
its encoded column is still assigned in `kpi_data` — the
`kpi_data.drop(columns=[c])` call is not in-place, so the feature is not
removed from the feature matrix (and the following feature `B` is skipped
by the mutation during iteration, remaining unencoded). -/
theorem C1_zero_corr_column_not_dropped :
    corrZero (finalGrades kpiTableAB) (encodeCol (kpiTableAB.col "A")) = true ∧
      "A" ∉ (process_kpi_data kpiTableAB ["A", "B"]).1 ∧
      (process_kpi_data kpiTableAB ["A", "B"]).2 "A" = some [1, 2, 1] := by decide

/-- C3 (bug evaluation): a source missing expected columns makes `load_data`
abort with the uncaught `KeyError` instead of the `NoValidDataError`
("No valid data found") assert, even though zero sources passed validation;
with no sources at all, the assert does fire. -/
theorem C3_zero_valid_keyerror :
    load_data [missingColTable] = .error .keyErr ∧
      (load_data [] : Except LErr Table) = .error .noValidData := by decide

/-- C5 (counterexample): the zero-variance feature `Z` of `kpiTableZ` has
NaN correlation, so neither branch fires and the feature is kept — it stays
in the effective KPI list with its encoded column unmodified, contradicting
the claim that it is dropped like the correlation-zero case. -/
theorem C5_counterexample :
    varN (encodeCol (kpiTableZ.col "Z")) = 0 ∧
      "Z" ∈ (process_kpi_data kpiTableZ ["Z"]).1 ∧
      (process_kpi_data kpiTableZ ["Z"]).2 "Z" = some [5, 5, 5] := by decide

/-- C6 (bug evaluation): a non-empty table whose columns are all declared but
which lacks expected columns passes the line-83 assert (its message says
'Some columns are missing', but the condition only rejects undeclared extra
columns) and then raises `KeyError` at `df[self.columns]`; `load_data`
catches only `AssertionError`, so the source is not skipped — the whole run
aborts even when another source is valid. -/
theorem C6_missing_column_keyerror :
    validate_data missingColTable = .error .keyErr ∧
      load_data [goodTable, missingColTable] = .error .keyErr := by decide

/-! ### Validator lemmas -/

lemma runChecks_ok_eq {d v : Table} : ∀ {cs : List (Option Bool × String)},
    runChecks d cs = .ok v → v = d := by
  intro cs
  induction cs with
  | nil =>
    intro h
    injection h with h
    exact h.symm
  | cons p rest ih =>
    obtain ⟨b, m⟩ := p
    cases b with
    | none =>
      intro h
      exact Except.noConfusion h
    | some b =>
      intro h
      unfold runChecks at h
      split at h
      · exact Except.noConfusion h
      · exact ih h

lemma validateChecks_ok_eq {d v : Table} (h : validateChecks d = .ok v) : v = d :=
  runChecks_ok_eq h

lemma select_some {t : Table} {cs : List String} (hsub : ∀ c ∈ cs, c ∈ t.cols) :
    t.select cs =
      some ⟨cs, t.rows.map (fun r => cs.map (fun c => r.getD (t.cols.indexOf c) Val.vNA))⟩ := by
  unfold Table.select
  rw [if_pos]
  rw [List.all_eq_true]
  exact fun c hc => decide_eq_true (hsub c hc)

lemma validate_ok_parts {t v : Table} (h : validate_data t = .ok v) :
    t.rows ≠ [] ∧ (∀ c ∈ COLUMNS, c ∈ t.cols) ∧
      t.select COLUMNS = some v ∧ validateChecks v = .ok v := by
  unfold validate_data at h
  split at h
  · exact Except.noConfusion h
  rename_i hemp
  split at h
  · exact Except.noConfusion h
  split at h
  · exact Except.noConfusion h
  rename_i d hsel
  have hd : v = d := validateChecks_ok_eq h
  subst hd
  refine ⟨fun hnil => hemp (by simp [hnil]), ?_, hsel, h⟩
  -- the select guard must have held for `select` to return `some`
  unfold Table.select at hsel
  split at hsel
  · rename_i hall
    intro c hc
    exact of_decide_eq_true (List.all_eq_true.mp hall c hc)
  · exact Option.noConfusion hsel

lemma select_shape {t d : Table} {cs : List String} (hsel : t.select cs = some d) :
    d = ⟨cs, t.rows.map (fun r => cs.map (fun c => r.getD (t.cols.indexOf c) Val.vNA))⟩ := by
  unfold Table.select at hsel
  split at hsel
  · injection hsel with h; exact h.symm
  · exact Option.noConfusion hsel

lemma select_col {t d : Table} {cs : List String}
    (hsel : t.select cs = some d) (c : String) (hc : c ∈ cs) : d.col c = t.col c := by
  rw [select_shape hsel]
  unfold Table.col
  simp only [List.map_map]
  refine List.map_congr_left (fun r _ => ?_)
  have hlt : cs.indexOf c < cs.length := List.indexOf_lt_length.mpr hc
  have hlen : cs.indexOf c < (cs.map (fun c' => r.getD (t.cols.indexOf c') Val.vNA)).length := by
    simpa using hlt
  simp only [Function.comp]
  rw [List.getD_eq_getElem _ _ hlen, List.getElem_map, List.getElem_indexOf hlt]

lemma map_getD_indexOf_self (cs : List String) (hnd : cs.Nodup) :
    ∀ r : List Val, r.length = cs.length →
      cs.map (fun c => r.getD (cs.indexOf c) Val.vNA) = r := by
  induction cs with
  | nil =>
    intro r hr
    cases r with
    | nil => rfl
    | cons a r' => simp at hr
  | cons c cs ih =>
    intro r hr
    cases r with
    | nil => simp at hr
    | cons a r' =>
      have hcnot : c ∉ cs := (List.nodup_cons.mp hnd).1
      simp only [List.map_cons, List.indexOf_cons_self, List.getD_cons_zero]
      congr 1
      have hcong : cs.map (fun c' => (a :: r').getD ((c :: cs).indexOf c') Val.vNA)
          = cs.map (fun c' => r'.getD (cs.indexOf c') Val.vNA) := by
        refine List.map_congr_left (fun c' hc' => ?_)
        rw [List.indexOf_cons_ne _ (fun he => hcnot (by rw [he]; exact hc'))]
        rfl
      rw [hcong, ih (List.nodup_cons.mp hnd).2 r' (by simpa using hr)]

/-! ### C8: validate restriction and idempotence -/

/-- C8: a table accepted by `validate_data` is returned restricted to
exactly the declared column set in declared order with each declared
column's values unmodified, and `validate_data` is idempotent on its own
output.  (Non-mutation of the input holds trivially: line 84 works on
`df[self.columns].copy()` and the embedding is pure.) -/
theorem C8_validate_idempotent (t v : Table) (h : validate_data t = .ok v) :
    validate_data v = .ok v ∧ v.cols = COLUMNS ∧ ∀ c ∈ COLUMNS, v.col c = t.col c := by
  obtain ⟨hne, hsub, hsel, hchecks⟩ := validate_ok_parts h
  have hshape := select_shape hsel
  have hcols : v.cols = COLUMNS := by rw [hshape]
  have hrows : v.rows = t.rows.map
      (fun r => COLUMNS.map (fun c => r.getD (t.cols.indexOf c) Val.vNA)) := by rw [hshape]
  refine ⟨?_, hcols, fun c hc => select_col hsel c hc⟩
  unfold validate_data
  rw [if_neg, if_neg]
  · have hvsel : v.select COLUMNS = some v := by
      have hsub' : ∀ c ∈ COLUMNS, c ∈ v.cols := fun c hc => by rw [hcols]; exact hc
      rw [select_some hsub']
      congr 1
      refine Table.ext hcols.symm ?_
      have : v.rows.map (fun r => COLUMNS.map (fun c => r.getD (v.cols.indexOf c) Val.vNA))
          = v.rows.map id := by
        refine List.map_congr_left (fun r hr => ?_)
        rw [hcols]
        refine map_getD_indexOf_self COLUMNS COLUMNS_nodup r ?_
        rw [hrows] at hr
        obtain ⟨r₀, _, rfl⟩ := List.mem_map.mp hr
        simp
      rw [this, List.map_id]
    rw [hvsel]
    exact hchecks
  · rw [hcols]
    decide
  · rw [hrows]
    simp only [List.isEmpty_eq_true, Bool.not_eq_true]
    intro hmapnil
    exact hne (by simpa using hmapnil)

theorem C8_validate_idempotent_witness :
    validate_data goodTable = .ok goodTable ∧ goodTable.cols = COLUMNS := by
  have h := C8_validate_idempotent goodTable goodTable (by decide)
  exact ⟨h.1, h.2.1⟩

/-! ### Loader lemmas -/

lemma mem_dedupAux (r : List Val) : ∀ (rs seen : List (List Val)),
    r ∈ dedupAux seen rs ↔ r ∈ rs ∧ r ∉ seen := by
  intro rs
  induction rs with
  | nil => intro seen; simp [dedupAux]
  | cons a rs ih =>
    intro seen
    unfold dedupAux
    split
    · rename_i hseen
      rw [ih]
      constructor
      · exact fun ⟨h1, h2⟩ => ⟨List.mem_cons_of_mem _ h1, h2⟩
      · rintro ⟨h1, h2⟩
        rcases List.mem_cons.mp h1 with rfl | h1
        · exact absurd hseen h2
        · exact ⟨h1, h2⟩
    · rename_i hseen
      rw [List.mem_cons, ih]
      constructor
      · rintro (rfl | ⟨h1, h2⟩)
        · exact ⟨List.mem_cons_self _ _, hseen⟩
        · exact ⟨List.mem_cons_of_mem _ h1, fun hs => h2 (List.mem_cons_of_mem _ hs)⟩
      · rintro ⟨h1, h2⟩
        by_cases hra : r = a
        · exact Or.inl hra
        · rcases List.mem_cons.mp h1 with hra' | h1
          · exact Or.inl hra'
          · refine Or.inr ⟨h1, fun hs => ?_⟩
            rcases List.mem_cons.mp hs with hra' | hs
            · exact hra hra'
            · exact h2 hs

lemma dedupAux_nodup : ∀ (rs seen : List (List Val)), (dedupAux seen rs).Nodup := by
  intro rs
  induction rs with
  | nil => intro seen; simp [dedupAux]
  | cons a rs ih =>
    intro seen
    unfold dedupAux
    split
    · exact ih seen
    · rw [List.nodup_cons]
      refine ⟨fun hmem => ?_, ih _⟩
      exact ((mem_dedupAux a rs (a :: seen)).mp hmem).2 (List.mem_cons_self _ _)

lemma mem_dedupRows {r : List Val} {rs : List (List Val)} :
    r ∈ dedupRows rs ↔ r ∈ rs := by
  unfold dedupRows
  rw [mem_dedupAux]
  simp

lemma dedupRows_nodup (rs : List (List Val)) : (dedupRows rs).Nodup :=
  dedupAux_nodup rs []

lemma count_eq_one_of_nodup_mem {α : Type _} [BEq α] [LawfulBEq α] {l : List α} {a : α}
    (hnd : l.Nodup) (ha : a ∈ l) : l.count a = 1 := by
  induction l with
  | nil => exact absurd ha (List.not_mem_nil a)
  | cons b l ih =>
    rw [List.nodup_cons] at hnd
    rcases List.mem_cons.mp ha with rfl | ha
    · rw [List.count_cons_self, List.count_eq_zero.mpr hnd.1]
    · rw [List.count_cons_of_ne (fun he => hnd.1 (by rw [← he]; exact ha)), ih hnd.2 ha]

lemma load_data_eq (srcs : List Table) {dfs : List Table}
    (hcv : collectValid srcs = .ok dfs) :
    load_data srcs =
      if dfs.isEmpty then .error .noValidData
      else if allDistinct ((Table.mk COLUMNS (dedupRows (mergeRows dfs))).col "StudentID") then
        .ok ⟨COLUMNS, dedupRows (mergeRows dfs)⟩
      else .error .identityConflict := by
  unfold load_data
  rw [hcv]

lemma load_ok_parts {srcs : List Table} {t : Table} (h : load_data srcs = .ok t) :
    ∃ dfs, collectValid srcs = .ok dfs ∧ dfs ≠ [] ∧
      t = ⟨COLUMNS, dedupRows (mergeRows dfs)⟩ ∧
      allDistinct (t.col "StudentID") = true := by
  unfold load_data at h
  split at h
  · exact Except.noConfusion h
  rename_i dfs hcv
  split at h
  · exact Except.noConfusion h
  rename_i hne
  split at h
  · rename_i hdist
    injection h with h
    exact ⟨dfs, hcv, by simpa using hne, h.symm, h ▸ hdist⟩
  · exact Except.noConfusion h

/-! ### C4: merged dataset invariants -/

/-- C4: every successful `load_data` run yields a table with pairwise
distinct `StudentID`s and no two identical rows (each merged record appears
exactly once, and membership agrees with the concatenation of the validated
sources); and when the deduplicated merge of the validated sources still has
a repeated `StudentID` (two sources assigning different values to one
identifier), the run fails with the fatal post-merge uniqueness assert
(`IdentityConflictError`) instead of skipping. -/
theorem C4_merged_dataset :
    (∀ (srcs : List Table) (t : Table), load_data srcs = .ok t →
        allDistinct (t.col "StudentID") = true ∧ t.rows.Nodup ∧
        (∀ r ∈ t.rows, t.rows.count r = 1) ∧
        ∀ dfs, collectValid srcs = .ok dfs → ∀ r, r ∈ t.rows ↔ r ∈ mergeRows dfs)
    ∧ (∀ (srcs dfs : List Table), collectValid srcs = .ok dfs → dfs ≠ [] →
        allDistinct ((Table.mk COLUMNS (dedupRows (mergeRows dfs))).col "StudentID") = false →
        load_data srcs = .error .identityConflict) := by
  constructor
  · intro srcs t h
    obtain ⟨dfs, hcv, hne, ht, hdist⟩ := load_ok_parts h
    have hnd : t.rows.Nodup := by rw [ht]; exact dedupRows_nodup _
    refine ⟨hdist, hnd, fun r hr => count_eq_one_of_nodup_mem hnd hr, ?_⟩
    intro dfs' hcv' r
    have : dfs' = dfs := by
      rw [hcv] at hcv'
      injection hcv' with h'
      exact h'.symm
    subst this
    rw [ht]
    exact mem_dedupRows
  · intro srcs dfs hcv hne hdist
    rw [load_data_eq srcs hcv, if_neg (by simpa using hne), if_neg (by simp [hdist])]

theorem C4_merged_dataset_witness :
    allDistinct ((Table.mk COLUMNS [goodRow, goodRow2]).col "StudentID") = true ∧
      (Table.mk COLUMNS [goodRow, goodRow2]).rows.Nodup ∧
      load_data [sourceA, sourceB] = .error .identityConflict := by
  have h := C4_merged_dataset.1 [goodTable, goodTable] ⟨COLUMNS, [goodRow, goodRow2]⟩ (by decide)
  exact ⟨h.1, h.2.1,
    C4_merged_dataset.2 [sourceA, sourceB] [sourceA, sourceB] (by decide) (by simp) (by decide)⟩

/-! ### C7: out-of-domain value rejects the whole source, run continues -/

lemma collectValid_skip {bad : Table} {m : String}
    (hb : validate_data (dropna bad) = .error (.assertFail m)) :
    ∀ pre post : List Table,
      collectValid (pre ++ bad :: post) = collectValid (pre ++ post) := by
  intro pre
  induction pre with
  | nil =>
    intro post
    show collectValid (bad :: post) = collectValid post
    rw [collectValid, hb]
  | cons s pre ih =>
    intro post
    show collectValid (s :: (pre ++ bad :: post)) = collectValid (s :: (pre ++ post))
    unfold collectValid
    rw [ih post]

/-- C7: a source whose table (after `dropna`) carries the declared columns,
whose `age` column is numeric (no string cell, so the pandas range
comparison does not raise `TypeError`), and which contains a row whose `age`
is an integer outside `[15, 22]`, is rejected wholesale by `validate_data`
with an `AssertionError` — no sub-table of it is ever returned — and
`load_data` of any source list containing it equals `load_data` without it:
the source is skipped and the run continues with the remaining sources. -/
theorem C7_bad_age_rejects_source (pre post : List Table) (bad : Table)
    (hcols : (dropna bad).cols = COLUMNS)
    (r : List Val) (hr : r ∈ (dropna bad).rows)
    (hnum : ((dropna bad).col "age").all comparableCell = true)
    (n : Int) (hcell : r.getD (COLUMNS.indexOf "age") Val.vNA = Val.vInt n)
    (hout : n < 15 ∨ 22 < n) :
    (∃ m, validate_data (dropna bad) = .error (.assertFail m)) ∧
      load_data (pre ++ bad :: post) = load_data (pre ++ post) := by
  have hsub : ∀ c ∈ COLUMNS, c ∈ (dropna bad).cols := fun c hc => by rw [hcols]; exact hc
  have hsel := select_some hsub
  set d : Table :=
    ⟨COLUMNS, (dropna bad).rows.map
      (fun r' => COLUMNS.map (fun c => r'.getD ((dropna bad).cols.indexOf c) Val.vNA))⟩ with hd
  have hcolage : d.col "age" = (dropna bad).col "age" :=
    select_col hsel "age" (by decide)
  have hmem : Val.vInt n ∈ (dropna bad).col "age" := by
    unfold Table.col
    rw [hcols, ← hcell]
    exact List.mem_map_of_mem _ hr
  have hage3 : colBetween d "age" 15 22 = some false := by
    unfold colBetween
    rw [hcolage, if_pos hnum]
    congr 1
    cases hall : ((dropna bad).col "age").all (fun v => match v with
        | Val.vInt k => decide (15 ≤ k) && decide (k ≤ 22)
        | _ => false) with
    | false => rfl
    | true =>
      exfalso
      have hc := List.all_eq_true.mp hall _ hmem
      have hc' : 15 ≤ n ∧ n ≤ 22 := by
        simpa [Bool.and_eq_true, decide_eq_true_eq] using hc
      rcases hout with h | h
      · omega
      · omega
  have hval : ∃ m, validateChecks d = .error (.assertFail m) := by
    unfold validateChecks checksOf
    cases h1 : allDistinct (d.col "StudentID") with
    | false => exact ⟨"StudentID must be unique", by simp [runChecks, h1]⟩
    | true =>
      cases h2 : d.colAll "sex" (isOneOf ["M", "F"]) with
      | false => exact ⟨"", by simp [runChecks, h1, h2]⟩
      | true =>
        exact ⟨"Age must be between 15 and 22", by simp [runChecks, h1, h2, hage3]⟩
  obtain ⟨m, hvcm⟩ := hval
  have hvd : validate_data (dropna bad) = .error (.assertFail m) := by
    unfold validate_data
    rw [if_neg, if_neg, hsel]
    · exact hvcm
    · rw [hcols]
      decide
    · simp only [List.isEmpty_eq_true, Bool.not_eq_true]
      intro hnil
      rw [hnil] at hr
      exact absurd hr (List.not_mem_nil r)
  refine ⟨⟨m, hvd⟩, ?_⟩
  unfold load_data
  rw [collectValid_skip hvd pre post]

theorem C7_bad_age_rejects_source_witness :
    load_data [badAgeTable, goodTable] = load_data [goodTable] :=
  (C7_bad_age_rejects_source [] [goodTable] badAgeTable (by decide) badAgeRow
    (by decide) (by decide) 23 (by decide) (Or.inr (by decide))).2

/-- Boundary of C7's scope, exhibited on the refined model: a *non-numeric*
out-of-domain age cell makes the range comparison raise `TypeError` (object
dtype), which `load_data` does not catch — that run aborts instead of
skipping the source, even beside a valid one. -/
lemma string_age_cell_aborts :
    validate_data strAgeTable = .error .typeErr ∧
      load_data [strAgeTable, goodTable] = .error .typeErr := by decide

/-! ### KPI loop lemmas -/

lemma mem_take_succ {α : Type _} : ∀ {l : List α} {i : Nat} {c : α},
    c ∈ l.take i → c ∈ l.take (i + 1) := by
  intro l
  induction l with
  | nil => intro i c hc; simp at hc
  | cons a l ih =>
    intro i c hc
    cases i with
    | zero => simp at hc
    | succ i =>
      rw [List.take_succ_cons] at hc ⊢
      rcases List.mem_cons.mp hc with rfl | hc
      · exact List.mem_cons_self _ _
      · exact List.mem_cons_of_mem _ (ih hc)

lemma get_not_mem_take {α : Type _} {l : List α} (hnd : l.Nodup) {i : Nat}
    (h : i < l.length) : l[i] ∉ l.take i := by
  intro hmem
  obtain ⟨j, hj, hje⟩ := List.mem_iff_getElem.mp hmem
  have hji : j < i := by
    have := hj
    rw [List.length_take] at this
    omega
  have hjl : j < l.length := lt_trans hji h
  rw [List.getElem_take] at hje
  have : j = i := (hnd.getElem_inj_iff).mp (by simpa using hje)
  omega

lemma get_mem_take_succ {α : Type _} (l : List α) (i : Nat) (h : i < l.length) :
    l[i] ∈ l.take (i + 1) := by
  refine List.mem_iff_getElem.mpr ⟨i, ?_, ?_⟩
  · rw [List.length_take]
    omega
  · rw [List.getElem_take]

lemma erase_get_eq {α : Type _} [DecidableEq α] {l : List α} (hnd : l.Nodup) {i : Nat}
    (h : i < l.length) : l.erase l[i] = l.take i ++ l.drop (i + 1) := by
  rw [hnd.erase_getElem i h, List.eraseIdx_eq_take_drop_succ]

lemma processLoop_fst_subset (data : Table) : ∀ (fuel i : Nat) (cols : List String)
    (kd : KData), (processLoop data fuel i cols kd).1 ⊆ cols := by
  intro fuel
  induction fuel with
  | zero =>
    intro i cols kd
    exact fun a ha => ha
  | succ n ih =>
    intro i cols kd
    simp only [processLoop]
    split
    · split
      · exact ih (i + 1) cols _
      · split
        · exact fun a ha => List.erase_subset _ _ (ih (i + 1) _ _ ha)
        · exact ih (i + 1) cols _
    · exact fun a ha => ha

lemma processLoop_preserve (data : Table) : ∀ (fuel i : Nat) (cols : List String)
    (kd : KData), cols.Nodup → ∀ c, c ∈ cols.take i →
      c ∈ (processLoop data fuel i cols kd).1 ∧
        (processLoop data fuel i cols kd).2 c = kd c := by
  intro fuel
  induction fuel with
  | zero =>
    intro i cols kd _ c hc
    exact ⟨List.take_subset _ _ hc, rfl⟩
  | succ n ih =>
    intro i cols kd hnd c hc
    simp only [processLoop]
    split
    · rename_i hlt
      have hne : c ≠ cols[i] := fun he =>
        get_not_mem_take hnd hlt (by rw [← he]; exact hc)
      split
      · refine ⟨(ih (i + 1) cols _ hnd c (mem_take_succ hc)).1,
          Eq.trans ((ih (i + 1) cols _ hnd c (mem_take_succ hc)).2) ?_⟩
        simp [kdUpdate, hne]
      · split
        · have hnd' : (cols.erase cols[i]).Nodup := hnd.erase _
          have hc' : c ∈ (cols.erase cols[i]).take (i + 1) := by
            rw [erase_get_eq hnd hlt, List.take_append_eq_append_take,
              List.take_of_length_le (by
                rw [List.length_take]
                exact le_trans (min_le_left _ _) (Nat.le_succ i))]
            exact List.mem_append_left _ hc
          refine ⟨(ih (i + 1) _ _ hnd' c hc').1,
            Eq.trans ((ih (i + 1) _ _ hnd' c hc').2) ?_⟩
          simp [kdUpdate, hne]
        · refine ⟨(ih (i + 1) cols _ hnd c (mem_take_succ hc)).1,
            Eq.trans ((ih (i + 1) cols _ hnd c (mem_take_succ hc)).2) ?_⟩
          simp [kdUpdate, hne]
    · exact ⟨List.take_subset _ _ hc, rfl⟩

lemma processLoop_fuel_succ (data : Table) : ∀ (fuel i : Nat) (cols : List String)
    (kd : KData), cols.length ≤ i + fuel →
      processLoop data (fuel + 1) i cols kd = processLoop data fuel i cols kd := by
  intro fuel
  induction fuel with
  | zero =>
    intro i cols kd hle
    simp only [processLoop]
    rw [dif_neg (by omega)]
  | succ n ih =>
    intro i cols kd hle
    simp only [processLoop]
    split
    · rename_i hlt
      split
      · exact ih (i + 1) cols _ (by omega)
      · split
        · refine ih (i + 1) _ _ ?_
          have := List.length_erase_of_mem (List.getElem_mem hlt)
          omega
        · exact ih (i + 1) cols _ (by omega)
    · rfl

/-- The iteration bound used by `process_kpi_data` is the loop's fixed point:
any extra fuel leaves the result unchanged, so the fuel-bounded model is the
exact semantics of the Python `for` loop, not a truncation. -/
lemma process_kpi_data_fuel_stable (data : Table) (kpiCols : List String) :
    ∀ extra : Nat, processLoop data (kpiCols.length + extra) 0 kpiCols kdEmpty
      = process_kpi_data data kpiCols := by
  intro extra
  induction extra with
  | zero => rfl
  | succ n ih =>
    rw [show kpiCols.length + (n + 1) = (kpiCols.length + n) + 1 from rfl,
      processLoop_fuel_succ data (kpiCols.length + n) 0 kpiCols kdEmpty (by omega), ih]

/-! ### C9: removing a feature mid-iteration skips the next feature -/

/-- C9: whenever the loop of `process_kpi_data` is at position `i` of its
(mutated) `kpi_columns` list and the feature there has correlation exactly 0,
that feature is removed from the list while the iterator advances, so the
feature at position `i + 1` is skipped entirely — its `kpi_data` column is
left exactly as it was (never assigned, hence never encoded,
correlation-checked or sign-aligned) — yet it remains in the effective
`kpi_columns` list that `generate_kpi` uses afterwards, while the removed
feature does not. -/
theorem C9_removed_feature_skips_next (data : Table) (fuel i : Nat) (cols : List String)
    (kd : KData) (hnd : cols.Nodup) (hi : i < cols.length) (h1 : i + 1 < cols.length)
    (hz : corrZero (finalGrades data) (encodeCol (data.col cols[i])) = true) :
    cols[i + 1] ∈ (processLoop data (fuel + 1) i cols kd).1 ∧
      (processLoop data (fuel + 1) i cols kd).2 cols[i + 1] = kd cols[i + 1] ∧
      cols[i] ∉ (processLoop data (fuel + 1) i cols kd).1 := by
  have hcov : covN (finalGrades data) (encodeCol (data.col cols[i])) = 0 := by
    unfold corrZero at hz
    simp only [Bool.and_eq_true, decide_eq_true_eq] at hz
    exact hz.2
  have hpos : corrPos (finalGrades data) (encodeCol (data.col cols[i])) = false := by
    unfold corrPos
    rw [hcov]
    simp
  have hstep : processLoop data (fuel + 1) i cols kd
      = processLoop data fuel (i + 1) (cols.erase cols[i])
          (kdUpdate kd cols[i] (encodeCol (data.col cols[i]))) := by
    simp only [processLoop]
    rw [dif_pos hi, if_neg (by simp [hpos]), if_pos hz]
  rw [hstep]
  have hmem1 : cols[i + 1] ∈ (cols.erase cols[i]).take (i + 1) := by
    rw [erase_get_eq hnd hi, List.take_append_eq_append_take,
      List.take_of_length_le (by
        rw [List.length_take]
        exact le_trans (min_le_left _ _) (Nat.le_succ i))]
    refine List.mem_append_right _ ?_
    have hlen : (List.take i cols).length = i := by
      rw [List.length_take]
      exact min_eq_left (le_of_lt hi)
    have h1i : i + 1 - i = 1 := by omega
    rw [hlen, h1i]
    refine List.mem_iff_getElem.mpr ⟨0, ?_, ?_⟩
    · rw [List.length_take, List.length_drop]
      omega
    · rw [List.getElem_take, List.getElem_drop]
  have hpres := processLoop_preserve data fuel (i + 1) (cols.erase cols[i])
    (kdUpdate kd cols[i] (encodeCol (data.col cols[i]))) (hnd.erase _) _ hmem1
  have hnecur : cols[i + 1] ≠ cols[i] := by
    intro he
    have : i + 1 = i := (hnd.getElem_inj_iff).mp he
    omega
  refine ⟨hpres.1, Eq.trans hpres.2 (by simp [kdUpdate, hnecur]), fun hmem => ?_⟩
  exact hnd.not_mem_erase (processLoop_fst_subset data fuel (i + 1) _ _ hmem)

theorem C9_removed_feature_skips_next_witness :
    "B" ∈ (process_kpi_data kpiTableAB ["A", "B"]).1 ∧
      (process_kpi_data kpiTableAB ["A", "B"]).2 "B" = none ∧
      "A" ∉ (process_kpi_data kpiTableAB ["A", "B"]).1 := by
  have h := C9_removed_feature_skips_next kpiTableAB 1 0 ["A", "B"] kdEmpty
    (by decide) (by decide) (by decide) (by decide)
  exact h

/-! ### C5: zero-variance feature is kept, not dropped -/

/-- C5 (amended): a KPI feature whose encoded column has zero variance has
an undefined (NaN) correlation, so both the `> 0` and `== 0` comparisons are
false and `process_kpi_data` keeps the feature unchanged: it stays in the
effective KPI list and its unmodified encoded column stays assigned in
`kpi_data`. -/
theorem C5_zero_variance_feature_kept (data : Table) (fuel i : Nat) (cols : List String)
    (kd : KData) (hnd : cols.Nodup) (hi : i < cols.length)
    (hv : varN (encodeCol (data.col cols[i])) = 0) :
    cols[i] ∈ (processLoop data (fuel + 1) i cols kd).1 ∧
      (processLoop data (fuel + 1) i cols kd).2 cols[i]
        = some (encodeCol (data.col cols[i])) := by
  have hpos : corrPos (finalGrades data) (encodeCol (data.col cols[i])) = false := by
    unfold corrPos
    rw [hv]
    simp
  have hzero : corrZero (finalGrades data) (encodeCol (data.col cols[i])) = false := by
    unfold corrZero
    rw [hv]
    simp
  have hstep : processLoop data (fuel + 1) i cols kd
      = processLoop data fuel (i + 1) cols
          (kdUpdate kd cols[i] (encodeCol (data.col cols[i]))) := by
    simp only [processLoop]
    rw [dif_pos hi, if_neg (by simp [hpos]), if_neg (by simp [hzero])]
  rw [hstep]
  have hpres := processLoop_preserve data fuel (i + 1) cols
    (kdUpdate kd cols[i] (encodeCol (data.col cols[i]))) hnd _ (get_mem_take_succ cols i hi)
  exact ⟨hpres.1, Eq.trans hpres.2 (by simp [kdUpdate])⟩

theorem C5_zero_variance_feature_kept_witness :
    "Z" ∈ (process_kpi_data kpiTableZ ["Z"]).1 ∧
      (process_kpi_data kpiTableZ ["Z"]).2 "Z" = some (encodeCol (kpiTableZ.col "Z")) := by
  have h := C5_zero_variance_feature_kept kpiTableZ 0 0 ["Z"] kdEmpty
    (by decide) (by decide) (by decide)
  exact h

end ImprovStudy
